import Mathlib

/-!
Shallow embedding of the meminfo parsing core of the repository:
`parseMemInfo` (collector/meminfo_linux.go), `parseMemInfoNuma` and
`parseMemInfoNumaStat` (collector/meminfo_numa_linux.go), the metric-kind
classification performed by `(*meminfoCollector).Update`
(collector/meminfo_linux.go), and the syscall-based `getMemInfo` of the
non-Linux (darwin) build of the collector.

Modelling conventions:
- Go `float64` values are modelled as exact rationals.  Every claim under
  study involves only small decimal literals and multiplication by 1024
  (a power of two, exact in float64), where float64 arithmetic and exact
  rational arithmetic agree.
- A reader wrapped in `bufio.Scanner` is modelled as the list of lines the
  scanner delivers plus the optional terminal read error that
  `scanner.Err()` reports afterwards (`RStream`).
- A Go function returning `(value, error)` is modelled by `GoResult.ret`;
  a Go index-out-of-range panic is modelled by `GoResult.indexOutOfRange`.
- Go strings are modelled at the character level; all inputs of interest
  are ASCII, where byte-level slicing and character-level slicing agree.
- A Go `map[string]float64` is modelled extensionally as an association
  list in which an assignment replaces any existing binding (`mapSet`),
  so each key occurs at most once, as in a Go map.
-/

namespace NodeExporter

/-- Models `unicode.IsSpace` on the Latin-1 range, the character class used
by Go `strings.Fields` and `strings.TrimSpace`.  (Higher Unicode
white-space code points are outside the modelled fragment; every input of
interest is ASCII.) -/
def goIsSpace (c : Char) : Bool :=
  c.toNat = 9 || c.toNat = 10 || c.toNat = 11 || c.toNat = 12 || c.toNat = 13 ||
  c.toNat = 32 || c.toNat = 133 || c.toNat = 160

/-- Worker for `fields`: scans the characters, accumulating the current
field in reverse. -/
def splitFieldsAux : List Char → List Char → List String
  | [], cur => if cur = [] then [] else [String.mk cur.reverse]
  | c :: cs, cur =>
    if goIsSpace c then
      if cur = [] then splitFieldsAux cs []
      else String.mk cur.reverse :: splitFieldsAux cs []
    else splitFieldsAux cs (c :: cur)

/-- Models Go `strings.Fields`: split around runs of white space, dropping
empty fields.  Every returned field is a nonempty string. -/
def fields (s : String) : List String :=
  splitFieldsAux s.toList []

/-- Models Go `strings.TrimSpace`. -/
def trimSpace (s : String) : String :=
  String.mk (((s.toList.dropWhile goIsSpace).reverse.dropWhile goIsSpace).reverse)

/-- Models Go `strings.TrimRight(s, ":")`: removes every trailing colon. -/
def trimRightColon (s : String) : String :=
  String.mk (s.toList.reverse.dropWhile (fun c => c = ':')).reverse

/-- Models the Go byte-slice expression `s[:len(s)-1]`: drop the final
character (byte-level and character-level slicing agree on ASCII input). -/
def dropLastChar (s : String) : String :=
  String.mk s.toList.dropLast

/-- Models Go `strings.HasSuffix`. -/
def hasSuffix (s suf : String) : Bool :=
  suf.toList.isSuffixOf s.toList

/-- Models the Go indexing expression `parts[i]` at a position already known
to be in range (out-of-range accesses are modelled separately by
`GoResult.indexOutOfRange`). -/
def nth (l : List String) (i : Nat) : String :=
  (l[i]?).getD ""

/-- Models one application of the compiled regular expression
`\((.*)\)` replaced by `_${1}` (`reParens.ReplaceAllString` in
meminfo_linux.go, and the identical local regexp `re` in
meminfo_numa_linux.go).  With the greedy `.*`, the single leftmost match
runs from the first opening parenthesis to the last closing parenthesis
after it, and no further match remains afterwards. -/
def reParensApply (cs : List Char) : List Char :=
  match cs.findIdx? (fun c => c = '(') with
  | none => cs
  | some i =>
    match cs.reverse.findIdx? (fun c => c = ')') with
    | none => cs
    | some rj =>
      let j := cs.length - 1 - rj
      if i < j then
        cs.take i ++ '_' :: ((cs.drop (i + 1)).take (j - (i + 1))) ++ cs.drop (j + 1)
      else cs

/-- Key canonicalization: `Active(anon)` becomes `Active_anon`. -/
def canonKey (s : String) : String :=
  String.mk (reParensApply s.toList)

/-- Exponent part of `parseFloat`: optional sign followed by a nonempty
digit string; yields the scale factor `10 ^ exp`. -/
def parseExp (cs : List Char) : Option ℚ :=
  match cs with
  | '+' :: ds =>
    if ds ≠ [] ∧ ds.all Char.isDigit then some ((10 : ℚ) ^ ds.foldl (fun a c => 10 * a + (c.toNat - 48)) 0)
    else none
  | '-' :: ds =>
    if ds ≠ [] ∧ ds.all Char.isDigit then some (((10 : ℚ) ^ ds.foldl (fun a c => 10 * a + (c.toNat - 48)) 0)⁻¹)
    else none
  | ds =>
    if ds ≠ [] ∧ ds.all Char.isDigit then some ((10 : ℚ) ^ ds.foldl (fun a c => 10 * a + (c.toNat - 48)) 0)
    else none

/-- Numeric value of a digit string. -/
def digitsToNat (cs : List Char) : Nat :=
  cs.foldl (fun a c => 10 * a + (c.toNat - 48)) 0

/-- Unsigned part of `parseFloat`: digits, optional fraction, optional
exponent; at least one digit must be present. -/
def parseFloatCore (cs : List Char) : Option ℚ :=
  let intPart := cs.takeWhile Char.isDigit
  let rest1 := cs.dropWhile Char.isDigit
  match rest1 with
  | [] => if intPart = [] then none else some (digitsToNat intPart)
  | c :: rest2 =>
    if c = '.' then
      let frac := rest2.takeWhile Char.isDigit
      let rest3 := rest2.dropWhile Char.isDigit
      if intPart = [] ∧ frac = [] then none
      else
        let mant : ℚ := (digitsToNat intPart : ℚ) + (digitsToNat frac : ℚ) / (10 : ℚ) ^ frac.length
        match rest3 with
        | [] => some mant
        | e :: rest4 =>
          if e = 'e' ∨ e = 'E' then (parseExp rest4).map (fun k => mant * k) else none
    else if c = 'e' ∨ c = 'E' then
      if intPart = [] then none
      else (parseExp rest2).map (fun k => (digitsToNat intPart : ℚ) * k)
    else none

/-- Models Go `strconv.ParseFloat(s, 64)` on the plain decimal fragment:
optional sign, digits, optional fraction, optional exponent.  Hexadecimal
floats, `inf`/`NaN` spellings and digit underscores are outside the
modelled fragment, and rounding to float64 is modelled as exact rational
arithmetic (exact on every input appearing in the claims). -/
def parseFloat (s : String) : Option ℚ :=
  match s.toList with
  | [] => none
  | '+' :: cs => parseFloatCore cs
  | '-' :: cs => (parseFloatCore cs).map (fun q => -q)
  | cs => parseFloatCore cs

/-- The `prometheus.ValueType` values used by the collectors. -/
inductive ValueType where
  | gauge
  | counter
deriving DecidableEq

/-- The `meminfoMetric` struct of collector/meminfo_numa_linux.go. -/
structure meminfoMetric where
  metricName : String
  metricType : ValueType
  numaNode   : String
  value      : ℚ
deriving DecidableEq

/-- The errors produced by the parsing core (each constructor records the
datum interpolated into the corresponding `fmt.Errorf` format string),
plus the terminal read error reported by `scanner.Err()`. -/
inductive GoErr where
  | invalidValueMeminfo (v : String)
  | invalidLineMeminfo (line : String)
  | invalidValueNumastat (v : String)
  | numastatFieldCount (line : String)
  | readErr (msg : String)
deriving DecidableEq

/-- True exactly on the terminal stream-read error. -/
def GoErr.isRead : GoErr → Bool
  | .readErr _ => true
  | _ => false

/-- Outcome of a Go function returning `(value, error)`.  `ret` carries the
returned value (`none` models a `nil` map/slice) and the returned error;
`indexOutOfRange idx len` models the runtime panic raised by an
out-of-range slice index. -/
inductive GoResult (α : Type) where
  | ret (val : Option α) (err : Option GoErr)
  | indexOutOfRange (idx : Nat) (len : Nat)
deriving DecidableEq

/-- A reader as seen through `bufio.Scanner`: the lines the scanner
delivers, then the optional read error reported by `scanner.Err()`. -/
structure RStream where
  lines : List String
  readErr : Option String
deriving DecidableEq

/-- A Go `map[string]float64`, modelled extensionally: the association list
never holds two bindings for one key. -/
abbrev MemInfoMap := List (String × ℚ)

/-- Models Go map assignment `m[k] = v`: any existing binding for `k` is
replaced. -/
def mapSet (m : MemInfoMap) (k : String) (v : ℚ) : MemInfoMap :=
  m.filter (fun p => p.1 ≠ k) ++ [(k, v)]

/-- The binding an association list holds for `k` (the last one, matching
`mapSet` semantics). -/
def lookupLast : MemInfoMap → String → Option ℚ
  | [], _ => none
  | p :: rest, k =>
    match lookupLast rest k with
    | some v => some v
    | none => if p.1 = k then some p.2 else none

/-- Loop body of `parseMemInfo` (collector/meminfo_linux.go lines 52-77),
one call per scanned line, threading the accumulated map.  Mirrors the
source: skip empty field lists, parse `parts[1]` as a float (an
out-of-range access when only one field is present), strip the final
character of `parts[0]`, canonicalize, then dispatch on the field count. -/
def parseMemInfoAux (e : Option String) : List String → MemInfoMap → GoResult MemInfoMap
  | [], acc => .ret (some acc) (e.map GoErr.readErr)
  | line :: rest, acc =>
    if (fields line).length = 0 then
      parseMemInfoAux e rest acc
    else
      match (fields line)[1]? with
      | none => .indexOutOfRange 1 (fields line).length
      | some s1 =>
        match parseFloat s1 with
        | none => .ret none (some (.invalidValueMeminfo s1))
        | some fv =>
          if (fields line).length = 2 then
            parseMemInfoAux e rest (mapSet acc (canonKey (dropLastChar (nth (fields line) 0))) fv)
          else if (fields line).length = 3 then
            parseMemInfoAux e rest
              (mapSet acc (canonKey (dropLastChar (nth (fields line) 0)) ++ "_bytes") (fv * 1024))
          else .ret none (some (.invalidLineMeminfo line))

/-- `parseMemInfo` of collector/meminfo_linux.go. -/
def parseMemInfo (st : RStream) : GoResult MemInfoMap :=
  parseMemInfoAux st.readErr st.lines []

/-- Loop body of `parseMemInfoNuma` (collector/meminfo_numa_linux.go lines
182-212): trim, skip blank lines, parse `parts[3]` as a float (an
out-of-range access when fewer than four fields are present), dispatch on
the field count (4, or 5 with a literal kB unit), then build one Gauge
record from `parts[2]` (colons trimmed, canonicalized) and `parts[1]`. -/
def parseMemInfoNumaAux (e : Option String) : List String → List meminfoMetric → GoResult (List meminfoMetric)
  | [], acc => .ret (some acc) (e.map GoErr.readErr)
  | raw :: rest, acc =>
    if trimSpace raw = "" then
      parseMemInfoNumaAux e rest acc
    else
      match (fields (trimSpace raw))[3]? with
      | none => .indexOutOfRange 3 (fields (trimSpace raw)).length
      | some s3 =>
        match parseFloat s3 with
        | none => .ret none (some (.invalidValueMeminfo s3))
        | some fv0 =>
          match (if (fields (trimSpace raw)).length = 4 then some fv0
                 else if (fields (trimSpace raw)).length = 5 ∧ nth (fields (trimSpace raw)) 4 = "kB" then
                   some (fv0 * 1024)
                 else none) with
          | none => .ret none (some (.invalidLineMeminfo (trimSpace raw)))
          | some fv =>
            parseMemInfoNumaAux e rest
              (acc ++ [⟨canonKey (trimRightColon (nth (fields (trimSpace raw)) 2)),
                       ValueType.gauge, nth (fields (trimSpace raw)) 1, fv⟩])

/-- `parseMemInfoNuma` of collector/meminfo_numa_linux.go. -/
def parseMemInfoNuma (st : RStream) : GoResult (List meminfoMetric) :=
  parseMemInfoNumaAux st.readErr st.lines []

/-- Loop body of `parseMemInfoNumaStat` (collector/meminfo_numa_linux.go
lines 228-249): trim, skip blank lines, require exactly two fields, parse
`parts[1]` as a float, and append one Counter record named
`parts[0] + "_total"` carrying the supplied node number. -/
def parseMemInfoNumaStatAux (e : Option String) (nodeNumber : String) :
    List String → List meminfoMetric → GoResult (List meminfoMetric)
  | [], acc => .ret (some acc) (e.map GoErr.readErr)
  | raw :: rest, acc =>
    if trimSpace raw = "" then
      parseMemInfoNumaStatAux e nodeNumber rest acc
    else
      if (fields (trimSpace raw)).length ≠ 2 then
        .ret none (some (.numastatFieldCount (trimSpace raw)))
      else
        match parseFloat (nth (fields (trimSpace raw)) 1) with
        | none => .ret none (some (.invalidValueNumastat (nth (fields (trimSpace raw)) 1)))
        | some fv =>
          parseMemInfoNumaStatAux e nodeNumber rest
            (acc ++ [⟨nth (fields (trimSpace raw)) 0 ++ "_total", ValueType.counter, nodeNumber, fv⟩])

/-- `parseMemInfoNumaStat` of collector/meminfo_numa_linux.go. -/
def parseMemInfoNumaStat (st : RStream) (nodeNumber : String) : GoResult (List meminfoMetric) :=
  parseMemInfoNumaStatAux st.readErr nodeNumber st.lines []

/-- The gauge-vs-counter classification performed by
`(*meminfoCollector).Update` (collector/meminfo_linux.go lines 149-153):
Counter exactly when the key ends in `_total`. -/
def metricTypeFor (k : String) : ValueType :=
  if hasSuffix k "_total" then ValueType.counter else ValueType.gauge

/-- The records `(*meminfoCollector).Update` assembles from the map
returned by `getMemInfo`: one per key, kind derived by `metricTypeFor`,
with no node label. -/
def updateRecords (m : MemInfoMap) : List meminfoMetric :=
  m.map (fun p => ⟨p.1, metricTypeFor p.1, "", p.2⟩)

/-- The fields of the darwin `vm_statistics64_data_t` used by the non-Linux
`getMemInfo` (each a page count or a page-event counter, modelled as the
exact value of its float64 conversion). -/
structure VMStatistics64 where
  active_count : ℚ
  compressor_page_count : ℚ
  inactive_count : ℚ
  wire_count : ℚ
  free_count : ℚ
  pageins : ℚ
  pageouts : ℚ
  internal_page_count : ℚ
  purgeable_count : ℚ
deriving DecidableEq

/-- The `xsw_usage` swap-usage struct returned by `sysctl vm.swapusage`. -/
structure XswUsage where
  xsu_used : ℚ
  xsu_total : ℚ
deriving DecidableEq

/-- The canonical key and normalized value `parseMemInfo` derives from one
accepted line (2-field and 3-field lines yield a binding, anything else
yields none): the per-line view of the loop body, used to state which line
a final map entry came from. -/
def lineEntry (line : String) : Option (String × ℚ) :=
  if (fields line).length = 2 then
    (parseFloat (nth (fields line) 1)).map
      (fun v => (canonKey (dropLastChar (nth (fields line) 0)), v))
  else if (fields line).length = 3 then
    (parseFloat (nth (fields line) 1)).map
      (fun v => (canonKey (dropLastChar (nth (fields line) 0)) ++ "_bytes", v * 1024))
  else none

/-- The map literal built by the darwin `getMemInfo` on the success path,
as a function of the native query results: the virtual-memory statistics,
the `hw.memsize` total, the swap usage, and the page size `ps`. -/
def getMemInfo (vmstat : VMStatistics64) (total : ℚ) (swap : XswUsage) (ps : ℚ) : MemInfoMap :=
  [("active_bytes", ps * vmstat.active_count),
   ("compressed_bytes", ps * vmstat.compressor_page_count),
   ("inactive_bytes", ps * vmstat.inactive_count),
   ("wired_bytes", ps * vmstat.wire_count),
   ("free_bytes", ps * vmstat.free_count),
   ("swapped_in_bytes_total", ps * vmstat.pageins),
   ("swapped_out_bytes_total", ps * vmstat.pageouts),
   ("internal_bytes", ps * vmstat.internal_page_count),
   ("purgeable_bytes", ps * vmstat.purgeable_count),
   ("total_bytes", total),
   ("swap_used_bytes", swap.xsu_used),
   ("swap_total_bytes", swap.xsu_total)]

/-! ### Generic helper lemmas -/

theorem nth_getElem (l : List String) (i : Nat) (h : i < l.length) :
    l[i]? = some (nth l i) := by
  simp [nth, List.getElem?_eq_getElem h]

/-! ### Step lemmas for the `parseMemInfo` loop -/

theorem meminfo_step_blank (e : Option String) (line : String) (rest : List String)
    (acc : MemInfoMap) (h : (fields line).length = 0) :
    parseMemInfoAux e (line :: rest) acc = parseMemInfoAux e rest acc := by
  simp [parseMemInfoAux, h]

theorem meminfo_step_crash (e : Option String) (line : String) (rest : List String)
    (acc : MemInfoMap) (h : (fields line).length = 1) :
    parseMemInfoAux e (line :: rest) acc = .indexOutOfRange 1 1 := by
  have h1 : (fields line)[1]? = none := by
    simp [List.getElem?_eq_none_iff, h]
  simp only [parseMemInfoAux, h1, h]
  norm_num

theorem meminfo_step_badval (e : Option String) (line : String) (rest : List String)
    (acc : MemInfoMap) (hl : 2 ≤ (fields line).length)
    (hv : parseFloat (nth (fields line) 1) = none) :
    parseMemInfoAux e (line :: rest) acc =
      .ret none (some (.invalidValueMeminfo (nth (fields line) 1))) := by
  have h1 : (fields line)[1]? = some (nth (fields line) 1) := nth_getElem _ _ (by omega)
  have h0 : ¬ (fields line).length = 0 := by omega
  simp only [parseMemInfoAux, if_neg h0, h1, hv]

theorem meminfo_step_two (e : Option String) (line : String) (rest : List String)
    (acc : MemInfoMap) (v : ℚ) (hl : (fields line).length = 2)
    (hv : parseFloat (nth (fields line) 1) = some v) :
    parseMemInfoAux e (line :: rest) acc =
      parseMemInfoAux e rest (mapSet acc (canonKey (dropLastChar (nth (fields line) 0))) v) := by
  have h1 : (fields line)[1]? = some (nth (fields line) 1) := nth_getElem _ _ (by omega)
  have h0 : ¬ (fields line).length = 0 := by omega
  simp only [parseMemInfoAux, if_neg h0, h1, hv, if_pos hl]

theorem meminfo_step_three (e : Option String) (line : String) (rest : List String)
    (acc : MemInfoMap) (v : ℚ) (hl : (fields line).length = 3)
    (hv : parseFloat (nth (fields line) 1) = some v) :
    parseMemInfoAux e (line :: rest) acc =
      parseMemInfoAux e rest
        (mapSet acc (canonKey (dropLastChar (nth (fields line) 0)) ++ "_bytes") (v * 1024)) := by
  have h1 : (fields line)[1]? = some (nth (fields line) 1) := nth_getElem _ _ (by omega)
  have h0 : ¬ (fields line).length = 0 := by omega
  have h2 : ¬ (fields line).length = 2 := by omega
  simp only [parseMemInfoAux, if_neg h0, h1, hv, if_neg h2, if_pos hl]

theorem meminfo_step_invalid (e : Option String) (line : String) (rest : List String)
    (acc : MemInfoMap) (v : ℚ) (hl : 4 ≤ (fields line).length)
    (hv : parseFloat (nth (fields line) 1) = some v) :
    parseMemInfoAux e (line :: rest) acc =
      .ret none (some (.invalidLineMeminfo line)) := by
  have h1 : (fields line)[1]? = some (nth (fields line) 1) := nth_getElem _ _ (by omega)
  have h0 : ¬ (fields line).length = 0 := by omega
  have h2 : ¬ (fields line).length = 2 := by omega
  have h3 : ¬ (fields line).length = 3 := by omega
  simp only [parseMemInfoAux, if_neg h0, h1, hv, if_neg h2, if_neg h3]

/-! ### Step lemmas for the `parseMemInfoNuma` loop -/

theorem numa_step_blank (e : Option String) (raw : String) (rest : List String)
    (acc : List meminfoMetric) (h : trimSpace raw = "") :
    parseMemInfoNumaAux e (raw :: rest) acc = parseMemInfoNumaAux e rest acc := by
  simp [parseMemInfoNumaAux, h]

theorem numa_step_crash (e : Option String) (raw : String) (rest : List String)
    (acc : List meminfoMetric) (hb : ¬ trimSpace raw = "")
    (hl : (fields (trimSpace raw)).length ≤ 3) :
    parseMemInfoNumaAux e (raw :: rest) acc =
      .indexOutOfRange 3 (fields (trimSpace raw)).length := by
  have h3 : (fields (trimSpace raw))[3]? = none := by
    simp [List.getElem?_eq_none_iff, hl]
  simp only [parseMemInfoNumaAux, if_neg hb, h3]

theorem numa_step_badval (e : Option String) (raw : String) (rest : List String)
    (acc : List meminfoMetric) (hb : ¬ trimSpace raw = "")
    (hl : 4 ≤ (fields (trimSpace raw)).length)
    (hv : parseFloat (nth (fields (trimSpace raw)) 3) = none) :
    parseMemInfoNumaAux e (raw :: rest) acc =
      .ret none (some (.invalidValueMeminfo (nth (fields (trimSpace raw)) 3))) := by
  have h3 : (fields (trimSpace raw))[3]? = some (nth (fields (trimSpace raw)) 3) :=
    nth_getElem _ _ (by omega)
  simp only [parseMemInfoNumaAux, if_neg hb, h3, hv]

theorem numa_step_four (e : Option String) (raw : String) (rest : List String)
    (acc : List meminfoMetric) (v : ℚ) (hb : ¬ trimSpace raw = "")
    (hl : (fields (trimSpace raw)).length = 4)
    (hv : parseFloat (nth (fields (trimSpace raw)) 3) = some v) :
    parseMemInfoNumaAux e (raw :: rest) acc =
      parseMemInfoNumaAux e rest
        (acc ++ [⟨canonKey (trimRightColon (nth (fields (trimSpace raw)) 2)),
                 ValueType.gauge, nth (fields (trimSpace raw)) 1, v⟩]) := by
  have h3 : (fields (trimSpace raw))[3]? = some (nth (fields (trimSpace raw)) 3) :=
    nth_getElem _ _ (by omega)
  simp only [parseMemInfoNumaAux, if_neg hb, h3, hv, if_pos hl]

theorem numa_step_five_kb (e : Option String) (raw : String) (rest : List String)
    (acc : List meminfoMetric) (v : ℚ) (hb : ¬ trimSpace raw = "")
    (hl : (fields (trimSpace raw)).length = 5)
    (hk : nth (fields (trimSpace raw)) 4 = "kB")
    (hv : parseFloat (nth (fields (trimSpace raw)) 3) = some v) :
    parseMemInfoNumaAux e (raw :: rest) acc =
      parseMemInfoNumaAux e rest
        (acc ++ [⟨canonKey (trimRightColon (nth (fields (trimSpace raw)) 2)),
                 ValueType.gauge, nth (fields (trimSpace raw)) 1, v * 1024⟩]) := by
  have h3 : (fields (trimSpace raw))[3]? = some (nth (fields (trimSpace raw)) 3) :=
    nth_getElem _ _ (by omega)
  have h4 : ¬ (fields (trimSpace raw)).length = 4 := by omega
  simp only [parseMemInfoNumaAux, if_neg hb, h3, hv, if_neg h4, hl, hk, and_self, if_pos, if_true]
  norm_num

theorem numa_step_invalid (e : Option String) (raw : String) (rest : List String)
    (acc : List meminfoMetric) (v : ℚ) (hb : ¬ trimSpace raw = "")
    (hl : 4 ≤ (fields (trimSpace raw)).length)
    (hv : parseFloat (nth (fields (trimSpace raw)) 3) = some v)
    (h4 : ¬ (fields (trimSpace raw)).length = 4)
    (h5 : ¬ ((fields (trimSpace raw)).length = 5 ∧ nth (fields (trimSpace raw)) 4 = "kB")) :
    parseMemInfoNumaAux e (raw :: rest) acc =
      .ret none (some (.invalidLineMeminfo (trimSpace raw))) := by
  have h3 : (fields (trimSpace raw))[3]? = some (nth (fields (trimSpace raw)) 3) :=
    nth_getElem _ _ (by omega)
  simp only [parseMemInfoNumaAux, if_neg hb, h3, hv, if_neg h4, if_neg h5]

/-! ### Step lemmas for the `parseMemInfoNumaStat` loop -/

theorem numastat_step_blank (e : Option String) (node raw : String) (rest : List String)
    (acc : List meminfoMetric) (h : trimSpace raw = "") :
    parseMemInfoNumaStatAux e node (raw :: rest) acc =
      parseMemInfoNumaStatAux e node rest acc := by
  simp [parseMemInfoNumaStatAux, h]

theorem numastat_step_badcount (e : Option String) (node raw : String) (rest : List String)
    (acc : List meminfoMetric) (hb : ¬ trimSpace raw = "")
    (hl : ¬ (fields (trimSpace raw)).length = 2) :
    parseMemInfoNumaStatAux e node (raw :: rest) acc =
      .ret none (some (.numastatFieldCount (trimSpace raw))) := by
  simp only [parseMemInfoNumaStatAux, if_neg hb, ne_eq, hl, not_false_eq_true, if_pos, if_true]

theorem numastat_step_badval (e : Option String) (node raw : String) (rest : List String)
    (acc : List meminfoMetric) (hb : ¬ trimSpace raw = "")
    (hl : (fields (trimSpace raw)).length = 2)
    (hv : parseFloat (nth (fields (trimSpace raw)) 1) = none) :
    parseMemInfoNumaStatAux e node (raw :: rest) acc =
      .ret none (some (.invalidValueNumastat (nth (fields (trimSpace raw)) 1))) := by
  simp only [parseMemInfoNumaStatAux, if_neg hb, ne_eq, hl, not_true_eq_false, if_neg,
    not_false_eq_true, hv, if_false]

theorem numastat_step_ok (e : Option String) (node raw : String) (rest : List String)
    (acc : List meminfoMetric) (v : ℚ) (hb : ¬ trimSpace raw = "")
    (hl : (fields (trimSpace raw)).length = 2)
    (hv : parseFloat (nth (fields (trimSpace raw)) 1) = some v) :
    parseMemInfoNumaStatAux e node (raw :: rest) acc =
      parseMemInfoNumaStatAux e node rest
        (acc ++ [⟨nth (fields (trimSpace raw)) 0 ++ "_total", ValueType.counter, node, v⟩]) := by
  simp only [parseMemInfoNumaStatAux, if_neg hb, ne_eq, hl, not_true_eq_false, if_neg,
    not_false_eq_true, hv, if_false]

/-! ### String suffix helper -/

theorem hasSuffix_append_self (s t : String) : hasSuffix (s ++ t) t = true := by
  simp only [hasSuffix, String.toList, String.data_append, List.isSuffixOf_iff_suffix]
  exact List.suffix_append s.data t.data

/-! ### Invariants of the parser loops -/

theorem numaAux_mem_gauge (lines : List String) (e : Option String) :
    ∀ (acc out : List meminfoMetric) (err : Option GoErr),
      parseMemInfoNumaAux e lines acc = .ret (some out) err →
      ∀ r ∈ out, r ∈ acc ∨ r.metricType = ValueType.gauge := by
  induction lines with
  | nil =>
    intro acc out err h r hr
    simp only [parseMemInfoNumaAux, GoResult.ret.injEq, Option.some.injEq] at h
    exact Or.inl (h.1 ▸ hr)
  | cons raw rest ih =>
    intro acc out err h r hr
    by_cases hb : trimSpace raw = ""
    · rw [numa_step_blank _ _ _ _ hb] at h
      exact ih acc out err h r hr
    · by_cases hl3 : (fields (trimSpace raw)).length ≤ 3
      · rw [numa_step_crash _ _ _ _ hb hl3] at h
        simp at h
      · have hl : 4 ≤ (fields (trimSpace raw)).length := by omega
        cases hv : parseFloat (nth (fields (trimSpace raw)) 3) with
        | none =>
          rw [numa_step_badval _ _ _ _ hb hl hv] at h
          simp at h
        | some v =>
          by_cases h4 : (fields (trimSpace raw)).length = 4
          · rw [numa_step_four _ _ _ _ v hb h4 hv] at h
            rcases ih _ out err h r hr with hacc | hg
            · rcases List.mem_append.mp hacc with h1 | h2
              · exact Or.inl h1
              · right
                simp only [List.mem_singleton] at h2
                rw [h2]
            · exact Or.inr hg
          · by_cases h5 : (fields (trimSpace raw)).length = 5 ∧ nth (fields (trimSpace raw)) 4 = "kB"
            · rw [numa_step_five_kb _ _ _ _ v hb h5.1 h5.2 hv] at h
              rcases ih _ out err h r hr with hacc | hg
              · rcases List.mem_append.mp hacc with h1 | h2
                · exact Or.inl h1
                · right
                  simp only [List.mem_singleton] at h2
                  rw [h2]
              · exact Or.inr hg
            · rw [numa_step_invalid _ _ _ _ v hb hl hv h4 h5] at h
              simp at h

theorem numastatAux_mem_counter (lines : List String) (e : Option String) (node : String) :
    ∀ (acc out : List meminfoMetric) (err : Option GoErr),
      parseMemInfoNumaStatAux e node lines acc = .ret (some out) err →
      ∀ r ∈ out, r ∈ acc ∨
        (r.metricType = ValueType.counter ∧ hasSuffix r.metricName "_total" = true) := by
  induction lines with
  | nil =>
    intro acc out err h r hr
    simp only [parseMemInfoNumaStatAux, GoResult.ret.injEq, Option.some.injEq] at h
    exact Or.inl (h.1 ▸ hr)
  | cons raw rest ih =>
    intro acc out err h r hr
    by_cases hb : trimSpace raw = ""
    · rw [numastat_step_blank _ _ _ _ _ hb] at h
      exact ih acc out err h r hr
    · by_cases hl : (fields (trimSpace raw)).length = 2
      · cases hv : parseFloat (nth (fields (trimSpace raw)) 1) with
        | none =>
          rw [numastat_step_badval _ _ _ _ _ hb hl hv] at h
          simp at h
        | some v =>
          rw [numastat_step_ok _ _ _ _ _ v hb hl hv] at h
          rcases ih _ out err h r hr with hacc | hc
          · rcases List.mem_append.mp hacc with h1 | h2
            · exact Or.inl h1
            · right
              simp only [List.mem_singleton] at h2
              rw [h2]
              exact ⟨rfl, hasSuffix_append_self _ _⟩
          · exact Or.inr hc
      · rw [numastat_step_badcount _ _ _ _ _ hb hl] at h
        simp at h

theorem meminfoAux_err_none (lines : List String) (e : Option String) :
    ∀ (acc : MemInfoMap) (out : Option MemInfoMap) (er : GoErr),
      parseMemInfoAux e lines acc = .ret out (some er) →
      er.isRead = false → out = none := by
  induction lines with
  | nil =>
    intro acc out er h hrd
    simp only [parseMemInfoAux, GoResult.ret.injEq] at h
    cases e with
    | none => simp at h
    | some msg =>
      have : er = GoErr.readErr msg := by
        have h2 := h.2
        simp [Option.map] at h2
        exact h2.symm
      rw [this] at hrd
      simp [GoErr.isRead] at hrd
  | cons line rest ih =>
    intro acc out er h hrd
    by_cases h0 : (fields line).length = 0
    · rw [meminfo_step_blank _ _ _ _ h0] at h
      exact ih acc out er h hrd
    · by_cases h1 : (fields line).length = 1
      · rw [meminfo_step_crash _ _ _ _ h1] at h
        simp at h
      · have hl2 : 2 ≤ (fields line).length := by omega
        cases hv : parseFloat (nth (fields line) 1) with
        | none =>
          rw [meminfo_step_badval _ _ _ _ hl2 hv] at h
          simp only [GoResult.ret.injEq] at h
          exact h.1.symm
        | some v =>
          by_cases h2 : (fields line).length = 2
          · rw [meminfo_step_two _ _ _ _ v h2 hv] at h
            exact ih _ out er h hrd
          · by_cases h3 : (fields line).length = 3
            · rw [meminfo_step_three _ _ _ _ v h3 hv] at h
              exact ih _ out er h hrd
            · have hl4 : 4 ≤ (fields line).length := by omega
              rw [meminfo_step_invalid _ _ _ _ v hl4 hv] at h
              simp only [GoResult.ret.injEq] at h
              exact h.1.symm

theorem meminfoAux_ret_foldl (lines : List String) (e : Option String) :
    ∀ (acc out : MemInfoMap) (err : Option GoErr),
      parseMemInfoAux e lines acc = .ret (some out) err →
      out = (lines.filterMap lineEntry).foldl (fun m p => mapSet m p.1 p.2) acc := by
  induction lines with
  | nil =>
    intro acc out err h
    simp only [parseMemInfoAux, GoResult.ret.injEq, Option.some.injEq] at h
    simp [h.1.symm]
  | cons line rest ih =>
    intro acc out err h
    by_cases h0 : (fields line).length = 0
    · rw [meminfo_step_blank _ _ _ _ h0] at h
      have hle : lineEntry line = none := by
        simp [lineEntry, h0]
      simp only [List.filterMap_cons, hle]
      exact ih acc out err h
    · by_cases h1 : (fields line).length = 1
      · rw [meminfo_step_crash _ _ _ _ h1] at h
        simp at h
      · have hl2 : 2 ≤ (fields line).length := by omega
        cases hv : parseFloat (nth (fields line) 1) with
        | none =>
          rw [meminfo_step_badval _ _ _ _ hl2 hv] at h
          simp at h
        | some v =>
          by_cases h2 : (fields line).length = 2
          · rw [meminfo_step_two _ _ _ _ v h2 hv] at h
            have hle : lineEntry line =
                some (canonKey (dropLastChar (nth (fields line) 0)), v) := by
              simp [lineEntry, h2, hv]
            simp only [List.filterMap_cons, hle, List.foldl_cons]
            exact ih _ out err h
          · by_cases h3 : (fields line).length = 3
            · rw [meminfo_step_three _ _ _ _ v h3 hv] at h
              have hle : lineEntry line =
                  some (canonKey (dropLastChar (nth (fields line) 0)) ++ "_bytes", v * 1024) := by
                simp [lineEntry, h2, h3, hv]
              simp only [List.filterMap_cons, hle, List.foldl_cons]
              exact ih _ out err h
            · have hl4 : 4 ≤ (fields line).length := by omega
              rw [meminfo_step_invalid _ _ _ _ v hl4 hv] at h
              simp at h

/-! ### Association-list map lemmas (Go map semantics) -/

/-- Number of bindings an association list holds for `k`. -/
def countKey (m : MemInfoMap) (k : String) : Nat :=
  m.countP (fun p => p.1 = k)

theorem countKey_mapSet_self (m : MemInfoMap) (k : String) (v : ℚ) :
    countKey (mapSet m k v) k = 1 := by
  simp only [countKey, mapSet, List.countP_append]
  have h0 : (m.filter (fun p => p.1 ≠ k)).countP (fun p => decide (p.1 = k)) = 0 := by
    rw [List.countP_eq_zero]
    intro p hp
    have := List.of_mem_filter hp
    simp at this ⊢
    exact this
  rw [h0]
  simp

theorem countKey_mapSet_le (m : MemInfoMap) (k k' : String) (v : ℚ)
    (hm : countKey m k' ≤ 1) : countKey (mapSet m k v) k' ≤ 1 := by
  by_cases hk : k = k'
  · rw [hk, countKey_mapSet_self]
  · simp only [countKey, mapSet, List.countP_append]
    have h1 : ([(k, v)] : MemInfoMap).countP (fun p => decide (p.1 = k')) = 0 := by
      simp [hk]
    rw [h1]
    have h2 : (m.filter (fun p => p.1 ≠ k)).countP (fun p => decide (p.1 = k')) ≤
        m.countP (fun p => decide (p.1 = k')) :=
      (List.filter_sublist m).countP_le _
    simpa using le_trans h2 hm

theorem countKey_foldl_le (entries : List (String × ℚ)) :
    ∀ (m : MemInfoMap), (∀ k, countKey m k ≤ 1) →
      ∀ k, countKey (entries.foldl (fun m p => mapSet m p.1 p.2) m) k ≤ 1 := by
  induction entries with
  | nil => intro m hm k; exact hm k
  | cons p es ih =>
    intro m hm k
    simp only [List.foldl_cons]
    exact ih _ (fun k' => countKey_mapSet_le m p.1 k' p.2 (hm k')) k

theorem lookupLast_append_single (l : MemInfoMap) (p : String × ℚ) (k : String) :
    lookupLast (l ++ [p]) k = if p.1 = k then some p.2 else lookupLast l k := by
  induction l with
  | nil =>
    by_cases hp : p.1 = k
    · simp [lookupLast, hp]
    · simp [lookupLast, hp]
  | cons a l ih =>
    by_cases hp : p.1 = k
    · simp only [List.cons_append, lookupLast, List.append_eq, ih, if_pos hp]
    · simp only [List.cons_append, lookupLast, List.append_eq, ih, if_neg hp]

theorem lookupLast_filter_ne (k k' : String) (hk : ¬ k = k') (l : MemInfoMap) :
    lookupLast (l.filter (fun p => p.1 ≠ k)) k' = lookupLast l k' := by
  induction l with
  | nil => rfl
  | cons a l ih =>
    by_cases ha : a.1 = k
    · have h1 : (a :: l).filter (fun p => p.1 ≠ k) = l.filter (fun p => p.1 ≠ k) := by
        simp [List.filter_cons, ha]
      have h2 : ¬ a.1 = k' := by rw [ha]; exact hk
      rw [h1, ih]
      simp only [lookupLast]
      cases lookupLast l k' with
      | some v => rfl
      | none => simp [h2]
    · have h1 : (a :: l).filter (fun p => p.1 ≠ k) = a :: l.filter (fun p => p.1 ≠ k) := by
        simp [List.filter_cons, ha]
      rw [h1]
      simp only [lookupLast, ih]

theorem lookupLast_mapSet_self (m : MemInfoMap) (k : String) (v : ℚ) :
    lookupLast (mapSet m k v) k = some v := by
  simp [mapSet, lookupLast_append_single]

theorem lookupLast_mapSet_ne (m : MemInfoMap) (k k' : String) (v : ℚ) (hk : ¬ k = k') :
    lookupLast (mapSet m k v) k' = lookupLast m k' := by
  simp only [mapSet, lookupLast_append_single, if_neg hk]
  exact lookupLast_filter_ne k k' hk m

theorem lookupLast_foldl (entries : List (String × ℚ)) :
    ∀ (m : MemInfoMap) (k : String),
      lookupLast (entries.foldl (fun m p => mapSet m p.1 p.2) m) k =
        (match lookupLast entries k with
         | some v => some v
         | none => lookupLast m k) := by
  induction entries with
  | nil =>
    intro m k
    simp [lookupLast]
  | cons p es ih =>
    intro m k
    simp only [List.foldl_cons]
    rw [ih]
    simp only [lookupLast]
    cases hes : lookupLast es k with
    | some v => simp
    | none =>
      by_cases hp : p.1 = k
      · simp only [if_pos hp]
        rw [← hp, lookupLast_mapSet_self]
      · simp only [if_neg hp]
        exact lookupLast_mapSet_ne m p.1 k p.2 hp

theorem lookupLast_pos (l : MemInfoMap) (k : String) :
    ∀ v : ℚ, lookupLast l k = some v → 1 ≤ countKey l k := by
  induction l with
  | nil => intro v h; simp [lookupLast] at h
  | cons a l ih =>
    intro v h
    simp only [countKey, List.countP_cons]
    cases hl : lookupLast l k with
    | some w =>
      have h1 : 1 ≤ countKey l k := ih w hl
      simp only [countKey] at h1
      omega
    | none =>
      simp only [lookupLast, hl] at h
      by_cases ha : a.1 = k
      · simp [ha]
      · simp [ha] at h

/-! ### Claim C1 -/

/-- C1 (counterexample): on the claim's own example line `Node 0 MemFree: 500 kB`,
`parseMemInfoNuma` produces exactly one Gauge record for node "0" with value
512000 (500 times 1024), but its name is `MemFree`, not `MemFree_bytes`:
the NUMA parser multiplies by 1024 yet never appends a `_bytes` suffix. -/
theorem c1_counterexample :
    parseMemInfoNuma ⟨["Node 0 MemFree: 500 kB"], none⟩ =
      .ret (some [⟨"MemFree", ValueType.gauge, "0", 512000⟩]) none ∧
    ("MemFree" = "MemFree_bytes" → False) := by
  constructor
  · have ht : trimSpace "Node 0 MemFree: 500 kB" = "Node 0 MemFree: 500 kB" := by decide
    have hf : fields "Node 0 MemFree: 500 kB" = ["Node", "0", "MemFree:", "500", "kB"] := by
      decide
    have hp : parseFloat "500" = some 500 := by decide
    have hc : canonKey (trimRightColon "MemFree:") = "MemFree" := by decide
    simp [parseMemInfoNuma, parseMemInfoNumaAux, ht, hf, hp, hc, nth]
    norm_num
  · decide

/-- C1 (amended): when `parseMemInfoNuma` meets a trimmed non-blank line of
exactly 5 whitespace fields whose fifth field is literally `kB` and whose
fourth field parses as a number, it appends exactly one Gauge record whose
value is the parsed number multiplied by 1024 and whose node label is the
second field; the record name is the third field with trailing colons
stripped and parentheses canonicalized, WITHOUT any `_bytes` suffix
(unlike the non-NUMA `parseMemInfo`). -/
theorem c1_numa_kb_line (e : Option String) (raw : String) (rest : List String)
    (acc : List meminfoMetric) (v : ℚ)
    (hb : ¬ trimSpace raw = "")
    (hl : (fields (trimSpace raw)).length = 5)
    (hk : nth (fields (trimSpace raw)) 4 = "kB")
    (hv : parseFloat (nth (fields (trimSpace raw)) 3) = some v) :
    parseMemInfoNumaAux e (raw :: rest) acc =
      parseMemInfoNumaAux e rest
        (acc ++ [⟨canonKey (trimRightColon (nth (fields (trimSpace raw)) 2)),
                 ValueType.gauge, nth (fields (trimSpace raw)) 1, v * 1024⟩]) :=
  numa_step_five_kb e raw rest acc v hb hl hk hv

/-- C1 (witness): the amended statement applied at the concrete example line. -/
theorem c1_witness :
    parseMemInfoNumaAux none ["Node 0 MemFree: 500 kB"] [] =
      parseMemInfoNumaAux none []
        [⟨"MemFree", ValueType.gauge, "0", (500 : ℚ) * 1024⟩] := by
  have h := c1_numa_kb_line none "Node 0 MemFree: 500 kB" [] [] 500
    (by decide) (by decide) (by decide) (by decide)
  have h2 : canonKey (trimRightColon (nth (fields (trimSpace "Node 0 MemFree: 500 kB")) 2)) =
      "MemFree" := by decide
  have h3 : nth (fields (trimSpace "Node 0 MemFree: 500 kB")) 1 = "0" := by decide
  rw [h2, h3, List.nil_append] at h
  exact h

/-! ### Claim C2 -/

/-- C2 (counterexample): `parseMemInfoNuma` on the line `Node 0 Foo_total: 5`
produces a Gauge record whose name `Foo_total` ends in `_total`, so the
claimed invariant (kind is Counter iff the name ends in `_total`, across all
three record-producing paths) fails: the NUMA per-node parser hard-codes
Gauge regardless of the name. -/
theorem c2_counterexample :
    parseMemInfoNuma ⟨["Node 0 Foo_total: 5"], none⟩ =
      .ret (some [⟨"Foo_total", ValueType.gauge, "0", 5⟩]) none ∧
    hasSuffix "Foo_total" "_total" = true ∧
    (ValueType.gauge = ValueType.counter → False) := by
  refine ⟨?_, by decide, by decide⟩
  have ht : trimSpace "Node 0 Foo_total: 5" = "Node 0 Foo_total: 5" := by decide
  have hf : fields "Node 0 Foo_total: 5" = ["Node", "0", "Foo_total:", "5"] := by decide
  have hp : parseFloat "5" = some 5 := by decide
  have hc : canonKey (trimRightColon "Foo_total:") = "Foo_total" := by decide
  simp [parseMemInfoNuma, parseMemInfoNumaAux, ht, hf, hp, hc, nth]

/-- C2 (amended): the records assembled by `Update` from the non-NUMA map are
Counter exactly when the name ends in `_total`; every record emitted by
`parseMemInfoNumaStat` is Counter and its name ends in `_total`; but every
record emitted by `parseMemInfoNuma` is Gauge regardless of its name, so a
Gauge record name may end in `_total` on that path. -/
theorem c2_kind_classification :
    (∀ (m : MemInfoMap) (r : meminfoMetric), r ∈ updateRecords m →
      (r.metricType = ValueType.counter ↔ hasSuffix r.metricName "_total" = true)) ∧
    (∀ (st : RStream) (node : String) (out : List meminfoMetric) (err : Option GoErr)
        (r : meminfoMetric),
      parseMemInfoNumaStat st node = .ret (some out) err → r ∈ out →
      r.metricType = ValueType.counter ∧ hasSuffix r.metricName "_total" = true) ∧
    (∀ (st : RStream) (out : List meminfoMetric) (err : Option GoErr) (r : meminfoMetric),
      parseMemInfoNuma st = .ret (some out) err → r ∈ out →
      r.metricType = ValueType.gauge) := by
  refine ⟨?_, ?_, ?_⟩
  · intro m r hr
    simp only [updateRecords, List.mem_map] at hr
    obtain ⟨p, hp, rfl⟩ := hr
    simp only [metricTypeFor]
    by_cases h : hasSuffix p.1 "_total" = true
    · simp [h]
    · simp [h]
  · intro st node out err r h hr
    rcases numastatAux_mem_counter st.lines st.readErr node [] out err h r hr with hacc | hc
    · simp at hacc
    · exact hc
  · intro st out err r h hr
    rcases numaAux_mem_gauge st.lines st.readErr [] out err h r hr with hacc | hg
    · simp at hacc
    · exact hg

/-- C2 (witness): the three parts of the amended statement applied at
concrete inputs. -/
theorem c2_witness :
    ((⟨"a_total", ValueType.counter, "", (1 : ℚ)⟩ : meminfoMetric).metricType =
        ValueType.counter ↔ hasSuffix "a_total" "_total" = true) ∧
    ((⟨"numa_hit_total", ValueType.counter, "1", (42 : ℚ)⟩ : meminfoMetric).metricType =
        ValueType.counter ∧ hasSuffix "numa_hit_total" "_total" = true) ∧
    (⟨"MemFree", ValueType.gauge, "0", (5 : ℚ)⟩ : meminfoMetric).metricType =
      ValueType.gauge := by
  have hstat : parseMemInfoNumaStat ⟨["numa_hit 42"], none⟩ "1" =
      .ret (some [⟨"numa_hit_total", ValueType.counter, "1", 42⟩]) none := by
    have ht : trimSpace "numa_hit 42" = "numa_hit 42" := by decide
    have hf : fields "numa_hit 42" = ["numa_hit", "42"] := by decide
    have hp : parseFloat "42" = some 42 := by decide
    simp [parseMemInfoNumaStat, parseMemInfoNumaStatAux, ht, hf, hp, nth]
  have hnuma : parseMemInfoNuma ⟨["Node 0 MemFree: 5"], none⟩ =
      .ret (some [⟨"MemFree", ValueType.gauge, "0", 5⟩]) none := by
    have ht : trimSpace "Node 0 MemFree: 5" = "Node 0 MemFree: 5" := by decide
    have hf : fields "Node 0 MemFree: 5" = ["Node", "0", "MemFree:", "5"] := by decide
    have hp : parseFloat "5" = some 5 := by decide
    have hc : canonKey (trimRightColon "MemFree:") = "MemFree" := by decide
    simp [parseMemInfoNuma, parseMemInfoNumaAux, ht, hf, hp, hc, nth]
  refine ⟨?_, ?_, ?_⟩
  · have hm : (⟨"a_total", ValueType.counter, "", (1 : ℚ)⟩ : meminfoMetric) ∈
        updateRecords [("a_total", 1)] := by
      simp [updateRecords, metricTypeFor, hasSuffix]
    exact c2_kind_classification.1 [("a_total", 1)] _ hm
  · exact c2_kind_classification.2.1 ⟨["numa_hit 42"], none⟩ "1"
      [⟨"numa_hit_total", ValueType.counter, "1", 42⟩] none _ hstat (by simp)
  · exact c2_kind_classification.2.2 ⟨["Node 0 MemFree: 5"], none⟩
      [⟨"MemFree", ValueType.gauge, "0", 5⟩] none _ hnuma (by simp)

/-! ### Claim C3 -/

/-- C3 (counterexample): `MemTotal` is a non-blank line with exactly one
whitespace field, and on it `parseMemInfo` does not terminate normally with
a format error: it hits an out-of-range index (the Go code reads `parts[1]`
before checking the field count), i.e. it crashes with a runtime panic. -/
theorem c3_counterexample :
    fields "MemTotal" = ["MemTotal"] ∧
    parseMemInfo ⟨["MemTotal"], none⟩ = .indexOutOfRange 1 1 := by
  exact ⟨by decide, by decide⟩

/-- C3 (amended): a non-blank line with at least two fields whose count is
neither 2 nor 3 and whose second field parses as a number makes
`parseMemInfo` return nil and a fatal format error naming the offending
line; but a line with exactly one field instead triggers an out-of-range
index access (a runtime panic), not a normal error return. -/
theorem c3_shape_dispatch :
    (∀ (e : Option String) (line : String) (rest : List String) (acc : MemInfoMap) (v : ℚ),
      4 ≤ (fields line).length → parseFloat (nth (fields line) 1) = some v →
      parseMemInfoAux e (line :: rest) acc = .ret none (some (.invalidLineMeminfo line))) ∧
    (∀ (e : Option String) (line : String) (rest : List String) (acc : MemInfoMap),
      (fields line).length = 1 →
      parseMemInfoAux e (line :: rest) acc = .indexOutOfRange 1 1) :=
  ⟨fun e line rest acc v hl hv => meminfo_step_invalid e line rest acc v hl hv,
   fun e line rest acc h => meminfo_step_crash e line rest acc h⟩

/-- C3 (witness): the amended statement applied to a 4-field line and to a
1-field line. -/
theorem c3_witness :
    parseMemInfoAux none ["a 1 2 3"] [] = .ret none (some (.invalidLineMeminfo "a 1 2 3")) ∧
    parseMemInfoAux none ["x"] [] = .indexOutOfRange 1 1 :=
  ⟨c3_shape_dispatch.1 none "a 1 2 3" [] [] 1 (by decide) (by decide),
   c3_shape_dispatch.2 none "x" [] [] (by decide)⟩

/-! ### Claim C4 -/

/-- C4 (counterexample): `Node 0 MemFree:` is a trimmed non-blank line with
three whitespace fields, and on it `parseMemInfoNuma` does not terminate
normally with a format error: it hits an out-of-range index (the Go code
reads `parts[3]` before checking the field count), i.e. a runtime panic. -/
theorem c4_counterexample :
    fields (trimSpace "Node 0 MemFree:") = ["Node", "0", "MemFree:"] ∧
    parseMemInfoNuma ⟨["Node 0 MemFree:"], none⟩ = .indexOutOfRange 3 3 := by
  exact ⟨by decide, by decide⟩

/-- C4 (amended): a trimmed non-blank line with at least four fields whose
count is neither 4 nor 5-with-fifth-field-kB and whose fourth field parses
as a number makes `parseMemInfoNuma` return nil and a fatal format error
naming the trimmed line; but a line with fewer than four fields instead
triggers an out-of-range index access (a runtime panic). -/
theorem c4_shape_dispatch :
    (∀ (e : Option String) (raw : String) (rest : List String)
        (acc : List meminfoMetric) (v : ℚ),
      ¬ trimSpace raw = "" → 4 ≤ (fields (trimSpace raw)).length →
      parseFloat (nth (fields (trimSpace raw)) 3) = some v →
      ¬ (fields (trimSpace raw)).length = 4 →
      ¬ ((fields (trimSpace raw)).length = 5 ∧ nth (fields (trimSpace raw)) 4 = "kB") →
      parseMemInfoNumaAux e (raw :: rest) acc =
        .ret none (some (.invalidLineMeminfo (trimSpace raw)))) ∧
    (∀ (e : Option String) (raw : String) (rest : List String) (acc : List meminfoMetric),
      ¬ trimSpace raw = "" → (fields (trimSpace raw)).length ≤ 3 →
      parseMemInfoNumaAux e (raw :: rest) acc =
        .indexOutOfRange 3 (fields (trimSpace raw)).length) :=
  ⟨fun e raw rest acc v hb hl hv h4 h5 => numa_step_invalid e raw rest acc v hb hl hv h4 h5,
   fun e raw rest acc hb hl => numa_step_crash e raw rest acc hb hl⟩

/-- C4 (witness): the amended statement applied to a 6-field line and to a
2-field line. -/
theorem c4_witness :
    parseMemInfoNumaAux none ["Node 0 MemFree: 500 kB x"] [] =
      .ret none (some (.invalidLineMeminfo (trimSpace "Node 0 MemFree: 500 kB x"))) ∧
    parseMemInfoNumaAux none ["Node 0"] [] =
      .indexOutOfRange 3 (fields (trimSpace "Node 0")).length :=
  ⟨c4_shape_dispatch.1 none "Node 0 MemFree: 500 kB x" [] [] 500
     (by decide) (by decide) (by decide) (by decide) (by decide),
   c4_shape_dispatch.2 none "Node 0" [] [] (by decide) (by decide)⟩

/-! ### Claim C5 -/

/-- C5 (counterexample): a stream whose scanner delivers the valid line
`MemTotal: 5` and then reports a terminal read error makes `parseMemInfo`
return the non-empty partial mapping accumulated so far TOGETHER with the
error (the Go code ends with `return memInfo, scanner.Err()`), so it is not
true that every error return carries an empty/absent mapping. -/
theorem c5_counterexample :
    parseMemInfo ⟨["MemTotal: 5"], some "read failure"⟩ =
      .ret (some [("MemTotal", 5)]) (some (.readErr "read failure")) ∧
    (([("MemTotal", (5 : ℚ))] : MemInfoMap) = [] → False) := by
  constructor
  · have hf : fields "MemTotal: 5" = ["MemTotal:", "5"] := by decide
    have hp : parseFloat "5" = some 5 := by decide
    have hc : canonKey (dropLastChar "MemTotal:") = "MemTotal" := by decide
    simp [parseMemInfo, parseMemInfoAux, hf, hp, hc, nth, mapSet]
  · simp

/-- C5 (amended): whenever `parseMemInfo` returns an error that is not the
terminal stream-read error (i.e. a malformed numeric value or a malformed
line shape), the returned mapping is nil — no partial mapping; a terminal
stream-read error, by contrast, is returned alongside the mapping
accumulated so far. -/
theorem c5_err_no_partial (st : RStream) (out : Option MemInfoMap) (er : GoErr)
    (h : parseMemInfo st = .ret out (some er)) (hrd : er.isRead = false) :
    out = none :=
  meminfoAux_err_none st.lines st.readErr [] out er h hrd

/-- C5 (witness): the amended statement applied to a stream with a malformed
numeric value. -/
theorem c5_witness :
    parseMemInfo ⟨["MemTotal x"], none⟩ = .ret none (some (.invalidValueMeminfo "x")) ∧
    (GoErr.invalidValueMeminfo "x").isRead = false ∧
    (none : Option MemInfoMap) = none := by
  have hparse : parseMemInfo ⟨["MemTotal x"], none⟩ =
      .ret none (some (.invalidValueMeminfo "x")) := by decide
  exact ⟨hparse, by decide,
    c5_err_no_partial ⟨["MemTotal x"], none⟩ none (.invalidValueMeminfo "x") hparse (by decide)⟩

/-! ### Claim C6 -/

/-- C6 (counterexample): on the 2-field line `MemTotal 5`, whose first token
does not end in a colon, `parseMemInfo` stores the key `MemTota` — the final
character is removed unconditionally (`parts[0][:len(parts[0])-1]`), not
only when it is a colon — refuting the claim that a token without a
trailing colon is used unchanged. -/
theorem c6_counterexample :
    parseMemInfo ⟨["MemTotal 5"], none⟩ = .ret (some [("MemTota", 5)]) none ∧
    ("MemTota" = "MemTotal" → False) := by
  constructor
  · have hf : fields "MemTotal 5" = ["MemTotal", "5"] := by decide
    have hp : parseFloat "5" = some 5 := by decide
    have hc : canonKey (dropLastChar "MemTotal") = "MemTota" := by decide
    simp [parseMemInfo, parseMemInfoAux, hf, hp, hc, nth, mapSet]
  · decide

/-- C6 (amended): for every accepted line the key is obtained from the first
token by removing its final character unconditionally (the code assumes a
trailing colon): a token ending in a colon loses that colon, but any other
token loses its last character too; the result is then canonicalized (and
suffixed with `_bytes` in the 3-field case). -/
theorem c6_key_derivation (e : Option String) (line : String) (rest : List String)
    (acc : MemInfoMap) (v : ℚ) (hv : parseFloat (nth (fields line) 1) = some v) :
    ((fields line).length = 2 →
      parseMemInfoAux e (line :: rest) acc =
        parseMemInfoAux e rest
          (mapSet acc (canonKey (dropLastChar (nth (fields line) 0))) v)) ∧
    ((fields line).length = 3 →
      parseMemInfoAux e (line :: rest) acc =
        parseMemInfoAux e rest
          (mapSet acc (canonKey (dropLastChar (nth (fields line) 0)) ++ "_bytes")
            (v * 1024))) :=
  ⟨fun h2 => meminfo_step_two e line rest acc v h2 hv,
   fun h3 => meminfo_step_three e line rest acc v h3 hv⟩

/-- C6 (witness): the amended statement applied at a concrete 2-field line. -/
theorem c6_witness :
    parseFloat (nth (fields "MemTotal: 5") 1) = some 5 ∧
    parseMemInfoAux none ["MemTotal: 5"] [] =
      parseMemInfoAux none []
        (mapSet [] (canonKey (dropLastChar (nth (fields "MemTotal: 5") 0))) 5) :=
  ⟨by decide,
   (c6_key_derivation none "MemTotal: 5" [] [] 5 (by decide)).1 (by decide)⟩

/-! ### Claim C7 -/

/-- C7: on a trimmed non-blank 2-field line whose second field parses as a
number, `parseMemInfoNumaStat` with node id `node` appends exactly one
record whose name is the first field concatenated with `_total`, whose kind
is Counter, whose node label is `node`, and whose value is the parsed
second field. -/
theorem c7_numastat_line (e : Option String) (node raw : String) (rest : List String)
    (acc : List meminfoMetric) (v : ℚ) (hb : ¬ trimSpace raw = "")
    (hl : (fields (trimSpace raw)).length = 2)
    (hv : parseFloat (nth (fields (trimSpace raw)) 1) = some v) :
    parseMemInfoNumaStatAux e node (raw :: rest) acc =
      parseMemInfoNumaStatAux e node rest
        (acc ++ [⟨nth (fields (trimSpace raw)) 0 ++ "_total",
                 ValueType.counter, node, v⟩]) :=
  numastat_step_ok e node raw rest acc v hb hl hv

/-- C7 (witness): `numa_hit 42` with node id `1` yields exactly the record
`numa_hit_total`, Counter, node `1`, value 42. -/
theorem c7_witness :
    parseMemInfoNumaStat ⟨["numa_hit 42"], none⟩ "1" =
      .ret (some [⟨"numa_hit_total", ValueType.counter, "1", 42⟩]) none := by
  have h := c7_numastat_line none "1" "numa_hit 42" [] [] 42
    (by decide) (by decide) (by decide)
  have h0 : nth (fields (trimSpace "numa_hit 42")) 0 = "numa_hit" := by decide
  have hs : "numa_hit" ++ "_total" = "numa_hit_total" := by decide
  rw [h0, hs, List.nil_append] at h
  calc parseMemInfoNumaStat ⟨["numa_hit 42"], none⟩ "1"
      = parseMemInfoNumaStatAux none "1" ["numa_hit 42"] [] := rfl
    _ = parseMemInfoNumaStatAux none "1" []
          [⟨"numa_hit_total", ValueType.counter, "1", 42⟩] := h
    _ = .ret (some [⟨"numa_hit_total", ValueType.counter, "1", 42⟩]) none := by
          simp [parseMemInfoNumaStatAux]

/-! ### Claim C8 -/

/-- C8: when `parseMemInfo` returns a mapping, and the canonical key `k` is
produced by at least one line of the stream, the mapping holds exactly one
entry for `k`, whose value is the one from the last line that produced `k`
(later duplicates silently overwrite earlier ones, with no error). -/
theorem c8_duplicate_last_wins (st : RStream) (out : MemInfoMap) (err : Option GoErr)
    (k : String) (v : ℚ)
    (h : parseMemInfo st = .ret (some out) err)
    (hk : lookupLast (st.lines.filterMap lineEntry) k = some v) :
    countKey out k = 1 ∧ lookupLast out k = some v := by
  have hout := meminfoAux_ret_foldl st.lines st.readErr [] out err h
  have hlook : lookupLast out k = some v := by
    rw [hout, lookupLast_foldl, hk]
  refine ⟨?_, hlook⟩
  have hle : countKey out k ≤ 1 := by
    rw [hout]
    exact countKey_foldl_le _ [] (fun k'' => by simp [countKey]) k
  have hge : 1 ≤ countKey out k := lookupLast_pos out k v hlook
  omega

/-- C8 (witness): a stream with the key `A` on two lines yields a mapping
with exactly one entry for `A`, holding the second value. -/
theorem c8_witness :
    countKey [("A", (2 : ℚ))] "A" = 1 ∧
    lookupLast [("A", (2 : ℚ))] "A" = some 2 := by
  have hparse : parseMemInfo ⟨["A: 1", "A: 2"], none⟩ = .ret (some [("A", 2)]) none := by
    have hf1 : fields "A: 1" = ["A:", "1"] := by decide
    have hf2 : fields "A: 2" = ["A:", "2"] := by decide
    have hp1 : parseFloat "1" = some 1 := by decide
    have hp2 : parseFloat "2" = some 2 := by decide
    have hc : canonKey (dropLastChar "A:") = "A" := by decide
    simp [parseMemInfo, parseMemInfoAux, hf1, hf2, hp1, hp2, hc, nth, mapSet]
  exact c8_duplicate_last_wins ⟨["A: 1", "A: 2"], none⟩ [("A", 2)] none "A" 2 hparse
    (by decide)

/-! ### Claim C9 -/

/-- C9: on the success path of the darwin `getMemInfo`, every
page-count-derived quantity (active, compressed, inactive, wired, free,
swapped-in, swapped-out, internal, purgeable) equals the page size times
the corresponding count, while total/swap-used/swap-total are not
multiplied by the page size; exactly the two page-in/page-out names end in
`_total`, and under `Update`'s suffix classification exactly those two
records are Counter and all others Gauge. -/
theorem c9_getMemInfo (vmstat : VMStatistics64) (total : ℚ) (swap : XswUsage) (ps : ℚ) :
    lookupLast (getMemInfo vmstat total swap ps) "active_bytes" =
      some (ps * vmstat.active_count) ∧
    lookupLast (getMemInfo vmstat total swap ps) "compressed_bytes" =
      some (ps * vmstat.compressor_page_count) ∧
    lookupLast (getMemInfo vmstat total swap ps) "inactive_bytes" =
      some (ps * vmstat.inactive_count) ∧
    lookupLast (getMemInfo vmstat total swap ps) "wired_bytes" =
      some (ps * vmstat.wire_count) ∧
    lookupLast (getMemInfo vmstat total swap ps) "free_bytes" =
      some (ps * vmstat.free_count) ∧
    lookupLast (getMemInfo vmstat total swap ps) "swapped_in_bytes_total" =
      some (ps * vmstat.pageins) ∧
    lookupLast (getMemInfo vmstat total swap ps) "swapped_out_bytes_total" =
      some (ps * vmstat.pageouts) ∧
    lookupLast (getMemInfo vmstat total swap ps) "internal_bytes" =
      some (ps * vmstat.internal_page_count) ∧
    lookupLast (getMemInfo vmstat total swap ps) "purgeable_bytes" =
      some (ps * vmstat.purgeable_count) ∧
    lookupLast (getMemInfo vmstat total swap ps) "total_bytes" = some total ∧
    lookupLast (getMemInfo vmstat total swap ps) "swap_used_bytes" = some swap.xsu_used ∧
    lookupLast (getMemInfo vmstat total swap ps) "swap_total_bytes" = some swap.xsu_total ∧
    (∀ k ∈ (getMemInfo vmstat total swap ps).map Prod.fst,
      (hasSuffix k "_total" = true ↔
        (k = "swapped_in_bytes_total" ∨ k = "swapped_out_bytes_total"))) ∧
    (∀ r ∈ updateRecords (getMemInfo vmstat total swap ps),
      (r.metricType = ValueType.counter ↔
        (r.metricName = "swapped_in_bytes_total" ∨
         r.metricName = "swapped_out_bytes_total"))) := by
  refine ⟨?_, ?_, ?_, ?_, ?_, ?_, ?_, ?_, ?_, ?_, ?_, ?_, ?_, ?_⟩
  case _ => simp [getMemInfo, lookupLast]
  case _ => simp [getMemInfo, lookupLast]
  case _ => simp [getMemInfo, lookupLast]
  case _ => simp [getMemInfo, lookupLast]
  case _ => simp [getMemInfo, lookupLast]
  case _ => simp [getMemInfo, lookupLast]
  case _ => simp [getMemInfo, lookupLast]
  case _ => simp [getMemInfo, lookupLast]
  case _ => simp [getMemInfo, lookupLast]
  case _ => simp [getMemInfo, lookupLast]
  case _ => simp [getMemInfo, lookupLast]
  case _ => simp [getMemInfo, lookupLast]
  case _ =>
    intro k hk
    simp only [getMemInfo, List.map_cons, List.map_nil, List.mem_cons,
      List.not_mem_nil, or_false] at hk
    rcases hk with rfl | rfl | rfl | rfl | rfl | rfl | rfl | rfl | rfl | rfl | rfl | rfl <;>
      decide
  case _ =>
    intro r hr
    simp only [updateRecords, List.mem_map] at hr
    obtain ⟨p, hp, rfl⟩ := hr
    simp only [getMemInfo, List.mem_cons, List.not_mem_nil, or_false] at hp
    rcases hp with rfl | rfl | rfl | rfl | rfl | rfl | rfl | rfl | rfl | rfl | rfl | rfl <;>
      simp [metricTypeFor, hasSuffix] <;> decide

/-- C9 (witness): the statement applied at concrete native query results. -/
theorem c9_witness :
    lookupLast (getMemInfo ⟨1, 2, 3, 4, 5, 6, 7, 8, 9⟩ 100 ⟨10, 20⟩ 4) "active_bytes" =
      some ((4 : ℚ) * 1) ∧
    ((⟨"swapped_in_bytes_total",
        metricTypeFor "swapped_in_bytes_total", "", (4 : ℚ) * 6⟩ : meminfoMetric).metricType =
      ValueType.counter ↔
      (("swapped_in_bytes_total" : String) = "swapped_in_bytes_total" ∨
       ("swapped_in_bytes_total" : String) = "swapped_out_bytes_total")) := by
  constructor
  · exact (c9_getMemInfo ⟨1, 2, 3, 4, 5, 6, 7, 8, 9⟩ 100 ⟨10, 20⟩ 4).1
  · exact (c9_getMemInfo ⟨1, 2, 3, 4, 5, 6, 7, 8, 9⟩ 100 ⟨10, 20⟩ 4).2.2.2.2.2.2.2.2.2.2.2.2.2
      ⟨"swapped_in_bytes_total", metricTypeFor "swapped_in_bytes_total", "", (4 : ℚ) * 6⟩
      (by simp [updateRecords, getMemInfo])

/-! ### Claim C10 -/

/-- C10: `parseMemInfo` never inspects the third field of a 3-field line —
whatever the third token is, the value is multiplied by 1024 and the key
gains the `_bytes` suffix — whereas `parseMemInfoNuma` accepts a fifth
field only when it is literally `kB` and otherwise aborts with a format
error. -/
theorem c10_unit_token_handling :
    (∀ (e : Option String) (line : String) (rest : List String) (acc : MemInfoMap) (v : ℚ),
      (fields line).length = 3 → parseFloat (nth (fields line) 1) = some v →
      parseMemInfoAux e (line :: rest) acc =
        parseMemInfoAux e rest
          (mapSet acc (canonKey (dropLastChar (nth (fields line) 0)) ++ "_bytes")
            (v * 1024))) ∧
    (∀ (e : Option String) (raw : String) (rest : List String)
        (acc : List meminfoMetric) (v : ℚ),
      ¬ trimSpace raw = "" → (fields (trimSpace raw)).length = 5 →
      ¬ nth (fields (trimSpace raw)) 4 = "kB" →
      parseFloat (nth (fields (trimSpace raw)) 3) = some v →
      parseMemInfoNumaAux e (raw :: rest) acc =
        .ret none (some (.invalidLineMeminfo (trimSpace raw)))) := by
  constructor
  · exact fun e line rest acc v h3 hv => meminfo_step_three e line rest acc v h3 hv
  · intro e raw rest acc v hb h5 hk hv
    exact numa_step_invalid e raw rest acc v hb (by omega) hv (by omega)
      (fun hand => hk hand.2)

/-- C10 (witness): `parseMemInfo` treats the unrecognized third token
`WHATEVER` exactly like a unit, while `parseMemInfoNuma` rejects the
non-kB fifth token `MB`. -/
theorem c10_witness :
    parseMemInfoAux none ["MemTotal: 10 WHATEVER"] [] =
      parseMemInfoAux none []
        (mapSet [] (canonKey (dropLastChar (nth (fields "MemTotal: 10 WHATEVER") 0)) ++
          "_bytes") ((10 : ℚ) * 1024)) ∧
    parseMemInfoNumaAux none ["Node 0 MemFree: 500 MB"] [] =
      .ret none (some (.invalidLineMeminfo (trimSpace "Node 0 MemFree: 500 MB"))) :=
  ⟨c10_unit_token_handling.1 none "MemTotal: 10 WHATEVER" [] [] 10 (by decide) (by decide),
   c10_unit_token_handling.2 none "Node 0 MemFree: 500 MB" [] [] 500
     (by decide) (by decide) (by decide) (by decide)⟩

end NodeExporter
